import Mathlib

/-!
Verification of the geometric preprocessing pipeline of `pc_preprocessing.py`
(PoInt-Net-Recon).  The pipeline stages are embedded shallowly: numeric
arrays become lists of rationals, file-system effects become explicit
returned `(path, table)` pairs, and Python runtime failures become an
explicit `PyError` value in an `Except` result.  Library calls that are not
part of the repository (Open3D voxel downsampling and normal estimation,
KD-tree queries) are modelled from the specification's contracts and the
libraries' documented behaviour; each such definition carries a doc comment
saying so.
-/

/-- A 3-D vector of exact rationals (the shallow embedding of a row of a
floating-point position / normal / color array). -/
abbrev Vec3 : Type := ℚ × ℚ × ℚ

/-- Dot product of two 3-D vectors, as in `np.dot(local_normals, normals[i])`
componentwise. -/
def dot (a b : Vec3) : ℚ := a.1 * b.1 + a.2.1 * b.2.1 + a.2.2 * b.2.2

/-- Squared Euclidean distance between two 3-D points. -/
def d2 (a b : Vec3) : ℚ :=
  (a.1 - b.1) ^ 2 + (a.2.1 - b.2.1) ^ 2 + (a.2.2 - b.2.2) ^ 2

/-- Indexing into a point list with the out-of-range default `(0,0,0)`
(indices used by the pipeline are always in range). -/
def nth (l : List Vec3) (i : Nat) : Vec3 := l.getD i (0, 0, 0)

theorem d2_nonneg (a b : Vec3) : 0 ≤ d2 a b := by
  unfold d2; positivity

theorem d2_eq_zero_iff (a b : Vec3) : d2 a b = 0 ↔ a = b := by
  unfold d2
  constructor
  · intro h
    have h1 : (a.1 - b.1) ^ 2 = 0 := by nlinarith [sq_nonneg (a.1 - b.1), sq_nonneg (a.2.1 - b.2.1), sq_nonneg (a.2.2 - b.2.2)]
    have h2 : (a.2.1 - b.2.1) ^ 2 = 0 := by nlinarith [sq_nonneg (a.1 - b.1), sq_nonneg (a.2.1 - b.2.1), sq_nonneg (a.2.2 - b.2.2)]
    have h3 : (a.2.2 - b.2.2) ^ 2 = 0 := by nlinarith [sq_nonneg (a.1 - b.1), sq_nonneg (a.2.1 - b.2.1), sq_nonneg (a.2.2 - b.2.2)]
    have e1 : a.1 = b.1 := by have := pow_eq_zero_iff (n := 2) (by norm_num) |>.mp h1; linarith [this]
    have e2 : a.2.1 = b.2.1 := by have := pow_eq_zero_iff (n := 2) (by norm_num) |>.mp h2; linarith [this]
    have e3 : a.2.2 = b.2.2 := by have := pow_eq_zero_iff (n := 2) (by norm_num) |>.mp h3; linarith [this]
    exact Prod.ext e1 (Prod.ext e2 e3)
  · intro h; subst h; ring

/-- Modelled from the spec: the KD-tree neighbour ordering (spec section 4.2).
Index `j` precedes index `k` when `j` is strictly closer to the query point
`q`, or at equal distance when `j ≤ k` (ties broken by original point index,
smallest first). -/
def nnLE (ps : List Vec3) (q : Vec3) (j k : Nat) : Prop :=
  d2 q (nth ps j) < d2 q (nth ps k) ∨
    (d2 q (nth ps j) = d2 q (nth ps k) ∧ j ≤ k)

instance (ps : List Vec3) (q : Vec3) : DecidableRel (nnLE ps q) := by
  intro j k; unfold nnLE; infer_instance

instance (ps : List Vec3) (q : Vec3) : IsTotal Nat (nnLE ps q) := by
  constructor
  intro j k
  rcases lt_trichotomy (d2 q (nth ps j)) (d2 q (nth ps k)) with h | h | h
  · exact Or.inl (Or.inl h)
  · rcases Nat.le_total j k with hj | hj
    · exact Or.inl (Or.inr ⟨h, hj⟩)
    · exact Or.inr (Or.inr ⟨h.symm, hj⟩)
  · exact Or.inr (Or.inl h)

instance (ps : List Vec3) (q : Vec3) : IsTrans Nat (nnLE ps q) := by
  constructor
  intro j k m hjk hkm
  rcases hjk with h1 | ⟨h1, hj⟩
  · rcases hkm with h2 | ⟨h2, _⟩
    · exact Or.inl (h1.trans h2)
    · exact Or.inl (h2 ▸ h1)
  · rcases hkm with h2 | ⟨h2, hk⟩
    · exact Or.inl (h1 ▸ h2)
    · exact Or.inr ⟨h1.trans h2, hj.trans hk⟩

/-- Modelled from the spec: `search_radius_vector_3d(pcd.points[i], r)` of the
Open3D KD-tree returns the indices of all points within distance `r` of point
`i` (the query point itself included), ordered by distance with ties broken by
index (spec section 4.2).  `r2` is the squared radius. -/
def sortedNeighbors (ps : List Vec3) (i : Nat) (r2 : ℚ) : List Nat :=
  List.insertionSort (nnLE ps (nth ps i))
    ((List.range ps.length).filter (fun j => decide (d2 (nth ps i) (nth ps j) ≤ r2)))

/-- The squared edge-detection search radius: the code calls
`search_radius_vector_3d(pcd.points[i], 0.1)`. -/
def edgeRadius2 : ℚ := 1 / 100

/-- Embeds `idx[1:]` of `detect_edge_points`: the radius-query result with its
first (closest) entry dropped. -/
def localIdx (ps : List Vec3) (i : Nat) : List Nat :=
  (sortedNeighbors ps i edgeRadius2).tail

/-- Embeds `cos_similarity = np.dot(local_normals, normals[i])` of
`detect_edge_points`: the dot product of each remaining neighbour's normal
with normal `i`. -/
def cosSims (ps ns : List Vec3) (i : Nat) : List ℚ :=
  (localIdx ps i).map (fun j => dot (nth ns j) (nth ns i))

/-- Embeds `np.mean`: `none` models the NaN produced on an empty array. -/
def npMean (l : List ℚ) : Option ℚ :=
  if l = [] then none else some (l.sum / l.length)

/-- Embeds the Python comparison `mean_cos_similarity < t`: a NaN mean
(empty neighbourhood) compares false against every threshold. -/
def meanLt (m : Option ℚ) (t : ℚ) : Bool :=
  match m with
  | none => false
  | some x => decide (x < t)

/-- The ten fixed thresholds of the `if mean_cos_similarity < ...` ladder in
`detect_edge_points`. -/
def thresholds : List ℚ :=
  [0, 1/10, 2/10, 3/10, 4/10, 5/10, 6/10, 7/10, 8/10, 9/10]

/-- Embeds the `edge_indices_k` lists of `detect_edge_points`: the point
indices appended when the mean cosine similarity is below threshold `t`. -/
def edgeIndices (ps ns : List Vec3) (t : ℚ) : List Nat :=
  (List.range ps.length).filter (fun i => meanLt (npMean (cosSims ps ns i)) t)

/-- Embeds `binary_mask_k = np.zeros(len(pcd.points)); binary_mask_k[edge_indices_k] = 1`:
a dense 0/1 array with ones exactly at the listed indices. -/
def maskOf (n : Nat) (idxs : List Nat) : List Nat :=
  (List.range n).map (fun i => if i ∈ idxs then 1 else 0)

/-- The ten binary masks computed by `detect_edge_points` from the positions
`ps` and the normals `ns` it actually uses for the cosine similarities. -/
def detectEdgeMasks (ps ns : List Vec3) : List (List Nat) :=
  thresholds.map (fun t => maskOf ps.length (edgeIndices ps ns t))

/-- Python runtime failures and the error taxonomy named by the spec
(section 7).  Only the constructors that some code path can actually reach
are ever produced by the embedded functions. -/
inductive PyError : Type
  | nameError (s : String)
  | indexError
  | valueError (s : String)
  | runtimeError (s : String)
  | emptyCloudError
  | invalidVoxelSizeError
deriving DecidableEq

/-- The ten mask file paths written by `detect_edge_points`:
`save_path/final_{pc_number}_{voxel_size}_edge_mask_threshold_mean_{t}.npy`,
with the threshold formatted as Python formats `0`, `0.1`, ..., `0.9`. -/
def maskFilePaths (savePath pcNumber voxelStr : String) : List String :=
  ["0", "0.1", "0.2", "0.3", "0.4", "0.5", "0.6", "0.7", "0.8", "0.9"].map
    (fun t => savePath ++ "/final_" ++ pcNumber ++ "_" ++ voxelStr ++
      "_edge_mask_threshold_mean_" ++ t ++ ".npy")

/-- Embeds `detect_edge_points`.  `ps` is the loaded position table,
`_loadedN` the normal table loaded from `normals_file_path` (bound to
`normals_np` by the code and never used again), and `estN` the output of the
library call `pcd.estimate_normals` on the positions (external library,
passed as a parameter).  The result pairs the list of files saved (when
`saveMask` is set) with the value of the final `return binary_mask`
statement, which raises a Python `NameError` because no variable of that
name is ever assigned. -/
def detectEdgePoints (ps _loadedN estN : List Vec3)
    (savePath pcNumber voxelStr : String) (saveMask : Bool) :
    List (String × List Nat) × Except PyError (List Nat) :=
  let masks := detectEdgeMasks ps estN
  ((if saveMask then (maskFilePaths savePath pcNumber voxelStr).zip masks else []),
   Except.error (PyError.nameError "binary_mask"))

/-- The radius-`r` neighbours of point `i` other than `i` itself, as the
specification words them ("excluding the point itself"). -/
def specNeighbors (ps : List Vec3) (i : Nat) : List Nat :=
  (List.range ps.length).filter
    (fun j => decide (j ≠ i) && decide (d2 (nth ps i) (nth ps j) ≤ edgeRadius2))

/-- The mean cosine similarity between normal `i` and the normals of the
radius neighbours of point `i` (the point itself excluded), as the
specification words it. -/
def specMeanCos (ps ns : List Vec3) (i : Nat) : Option ℚ :=
  npMean ((specNeighbors ps i).map (fun j => dot (nth ns j) (nth ns i)))

/-- A 2-D numpy array of rationals: the column count is part of the array's
shape (meaningful even with zero rows), the rows are lists of entries. -/
structure NpArray : Type where
  ncols : Nat
  rows : List (List ℚ)
deriving DecidableEq

/-- Well-formedness of an `NpArray`: every row has exactly `ncols` entries. -/
def NpArray.WF (a : NpArray) : Prop := ∀ r ∈ a.rows, r.length = a.ncols

/-- Embeds `pcd_data[:, :3]` for one row: the three leading coordinates. -/
def rowPos (r : List ℚ) : Vec3 := (r.getD 0 0, r.getD 1 0, r.getD 2 0)

/-- Embeds `pcd_data[:, 3:6] / 65536.` for one row (numpy slices clamp, and
rows reaching this point have at least 7 entries). -/
def rowColor (r : List ℚ) : Vec3 :=
  (r.getD 3 0 / 65536, r.getD 4 0 / 65536, r.getD 5 0 / 65536)

/-- Modelled from the spec: `VoxelKey = floor(position / v)` componentwise
(spec section 4.3, step 1). -/
def voxelKey (v : ℚ) (p : Vec3) : Int × Int × Int :=
  (⌊p.1 / v⌋, ⌊p.2.1 / v⌋, ⌊p.2.2 / v⌋)

/-- Arithmetic mean of a list of vectors, componentwise (the representative
point / color of one voxel). -/
def centroid (l : List Vec3) : Vec3 :=
  ((l.map (fun p => p.1)).sum / l.length,
   (l.map (fun p => p.2.1)).sum / l.length,
   (l.map (fun p => p.2.2)).sum / l.length)

/-- Modelled from the spec: the Open3D library call
`pcd.voxel_down_sample(voxel_size)` (library code, not part of the
repository).  Per spec section 4.3 it groups points by
`VoxelKey = floor(position / v)` and emits one representative per occupied
voxel whose position and color are the arithmetic means of the members;
voxel iteration order is implementation-defined but deterministic, taken
here as first-occurrence order.  The library rejects a non-positive voxel
size with a generic `RuntimeError`. -/
def voxelDownSample (ps cs : List Vec3) (v : ℚ) :
    Except PyError (List Vec3 × List Vec3) :=
  if v ≤ 0 then Except.error (PyError.runtimeError "voxel_size <= 0")
  else
    let pc := ps.zip cs
    let keys := (ps.map (voxelKey v)).dedup
    Except.ok
      (keys.map (fun k => centroid ((pc.filter (fun x => decide (voxelKey v x.1 = k))).map (fun x => x.1))),
       keys.map (fun k => centroid ((pc.filter (fun x => decide (voxelKey v x.1 = k))).map (fun x => x.2))))

/-- Modelled from the spec: `tree.query(point, k=1)` against a KD-tree built
over `ps` returns the index of the nearest point, ties broken by smallest
original index (spec section 4.2): the head of the index list sorted by
(distance, index). -/
def nearestIdx (ps : List Vec3) (q : Vec3) : Nat :=
  (List.insertionSort (nnLE ps q) (List.range ps.length)).headD 0

/-- One output row of the downsampler:
`[position / 1_000_000, color, intensity]` column-concatenated. -/
def outRow (p c : Vec3) (q : ℚ) : List ℚ :=
  [p.1 / 1000000, p.2.1 / 1000000, p.2.2 / 1000000, c.1, c.2.1, c.2.2, q]

/-- Embeds the per-file body of `process_point_clouds` on one loaded array
`a` (the `np.load` result), voxel size `v` and input file path `path`:
normalize the color columns, take column 6 as intensity (an `IndexError`
when the array has fewer than 7 columns), voxel-downsample, inherit each
representative's intensity from the nearest original point, evaluate
`np.max(combined_data[:, :6])` for the diagnostic print (a `ValueError`
when the combined table has zero rows, since a reduction over a zero-size
array has no identity — raised before the save, so nothing is persisted),
and otherwise save `[pos/1e6, color, intensity]` back to the same path.
The `Except` result carries the saved `(path, table)` pair. -/
def processPointCloudsFile (a : NpArray) (v : ℚ) (path : String) :
    Except PyError (String × NpArray) :=
  if a.ncols < 7 then Except.error PyError.indexError
  else
    let positions := a.rows.map rowPos
    let colors := a.rows.map rowColor
    let lidar := a.rows.map (fun r => r.getD 6 0)
    match voxelDownSample positions colors v with
    | Except.error e => Except.error e
    | Except.ok (dpos, dcol) =>
        let dlidar := dpos.map (fun p => lidar.getD (nearestIdx positions p) 0)
        let combined := List.zipWith3 outRow dpos dcol dlidar
        if combined = [] then
          Except.error (PyError.valueError
            "zero-size array to reduction operation maximum which has no identity")
        else Except.ok (path, ⟨7, combined⟩)

/-- Index `i` is a nearest point of `ps` to the query `q` in the sense of the
spec's `kNearest(q, 1)`: a valid index whose distance to `q` is strictly
smaller than every other point's, or equal with the smaller original index. -/
def IsNearest1 (ps : List Vec3) (q : Vec3) (i : Nat) : Prop :=
  i < ps.length ∧ ∀ j, j < ps.length →
    d2 q (nth ps i) < d2 q (nth ps j) ∨
      (d2 q (nth ps i) = d2 q (nth ps j) ∧ i ≤ j)

/-- Embeds the remap `(normals_np + 1) / 2 * 255` of
`process_and_normalize_normals` on one component. -/
def normalizeComponent (x : ℚ) : ℚ := (x + 1) / 2 * 255

/-- The remap applied to all three components of one normal. -/
def normalizeNormal (n : Vec3) : Vec3 :=
  (normalizeComponent n.1, normalizeComponent n.2.1, normalizeComponent n.2.2)

/-- Embeds the per-file body of `process_and_normalize_normals`: `estN` is
the output of the library call `point_cloud_o3d.estimate_normals` on the
loaded positions (external library, passed as a parameter); every component
is remapped by `(x + 1) / 2 * 255` and the result is saved to
`output_folder/file`.  The result is the saved `(path, normals)` pair. -/
def processAndNormalizeNormals (estN : List Vec3) (outputFolder file : String) :
    String × List Vec3 :=
  (outputFolder ++ "/" ++ file, estN.map normalizeNormal)

theorem npMean_perm {l1 l2 : List ℚ} (h : l1.Perm l2) : npMean l1 = npMean l2 := by
  by_cases h1 : l1 = []
  · subst h1
    have : l2 = [] := h.symm.eq_nil
    simp [this]
  · have h2 : l2 ≠ [] := fun e => h1 ((e ▸ h).eq_nil)
    simp [npMean, h1, h2, h.sum_eq, h.length_eq]

theorem mem_filterRange {n : Nat} {p : Nat → Bool} {j : Nat} :
    j ∈ (List.range n).filter p ↔ j < n ∧ p j = true := by
  simp [List.mem_filter, List.mem_range]

/-- The unsorted radius-query candidate list of `sortedNeighbors`. -/
def radiusFilter (ps : List Vec3) (i : Nat) : List Nat :=
  (List.range ps.length).filter
    (fun j => decide (d2 (nth ps i) (nth ps j) ≤ edgeRadius2))

theorem sortedNeighbors_eq_sort (ps : List Vec3) (i : Nat) :
    sortedNeighbors ps i edgeRadius2 =
      List.insertionSort (nnLE ps (nth ps i)) (radiusFilter ps i) := rfl

theorem self_mem_radiusFilter {ps : List Vec3} {i : Nat} (hi : i < ps.length) :
    i ∈ radiusFilter ps i := by
  unfold radiusFilter
  rw [mem_filterRange]
  refine ⟨hi, ?_⟩
  have h0 : d2 (nth ps i) (nth ps i) = 0 := (d2_eq_zero_iff _ _).mpr rfl
  simp [h0, edgeRadius2]

theorem radiusFilter_nodup (ps : List Vec3) (i : Nat) : (radiusFilter ps i).Nodup :=
  (List.nodup_range ps.length).filter _

/-- Under pairwise-distinct positions the first entry of the sorted radius
query is the query point itself (it is the unique point at distance zero). -/
theorem sortedNeighbors_head {ps : List Vec3} {i : Nat}
    (hinj : ∀ j k, j < ps.length → k < ps.length → nth ps j = nth ps k → j = k)
    (hi : i < ps.length) :
    sortedNeighbors ps i edgeRadius2 = i :: (sortedNeighbors ps i edgeRadius2).tail := by
  have hperm : (sortedNeighbors ps i edgeRadius2).Perm (radiusFilter ps i) :=
    List.perm_insertionSort _ _
  have hiL : i ∈ sortedNeighbors ps i edgeRadius2 :=
    hperm.mem_iff.mpr (self_mem_radiusFilter hi)
  have hsorted : List.Sorted (nnLE ps (nth ps i)) (sortedNeighbors ps i edgeRadius2) :=
    List.sorted_insertionSort _ _
  cases hL : sortedNeighbors ps i edgeRadius2 with
  | nil => rw [hL] at hiL; cases hiL
  | cons h t =>
    rw [hL] at hiL hsorted
    have hrel : ∀ b ∈ t, nnLE ps (nth ps i) h b := (List.sorted_cons.mp hsorted).1
    have hhF : h ∈ radiusFilter ps i := hperm.mem_iff.mp (hL ▸ List.mem_cons_self h t)
    have hhlt : h < ps.length := by
      have := (mem_filterRange (p := fun j => decide (d2 (nth ps i) (nth ps j) ≤ edgeRadius2))).mp hhF
      exact this.1
    have hih : h = i := by
      rcases List.mem_cons.mp hiL with e | hit
      · exact e.symm
      · have hr := hrel i hit
        rcases hr with hlt | ⟨heq, _⟩
        · exfalso
          have h00 : d2 (nth ps i) (nth ps i) = 0 := (d2_eq_zero_iff _ _).mpr rfl
          rw [h00] at hlt
          exact absurd hlt (not_lt.mpr (d2_nonneg _ _))
        · have h00 : d2 (nth ps i) (nth ps i) = 0 := (d2_eq_zero_iff _ _).mpr rfl
          rw [h00] at heq
          have : nth ps i = nth ps h := (d2_eq_zero_iff _ _).mp heq
          exact hinj h i hhlt hi this.symm
    subst hih
    simp

/-- Under pairwise-distinct positions the local index list `idx[1:]` is a
permutation of the spec's neighbour set (all points within the radius other
than the point itself). -/
theorem localIdx_perm_specNeighbors {ps : List Vec3} {i : Nat}
    (hinj : ∀ j k, j < ps.length → k < ps.length → nth ps j = nth ps k → j = k)
    (hi : i < ps.length) :
    (localIdx ps i).Perm (specNeighbors ps i) := by
  have hperm : (sortedNeighbors ps i edgeRadius2).Perm (radiusFilter ps i) :=
    List.perm_insertionSort _ _
  have hhead := sortedNeighbors_head hinj hi
  have hcons : (i :: (sortedNeighbors ps i edgeRadius2).tail).Perm (radiusFilter ps i) := by
    rw [← hhead]; exact hperm
  have htail : (localIdx ps i).Perm ((radiusFilter ps i).erase i) := by
    have := hcons.erase i
    simpa [localIdx, List.erase_cons_head] using this
  have herase : (radiusFilter ps i).erase i = specNeighbors ps i := by
    rw [(radiusFilter_nodup ps i).erase_eq_filter i]
    unfold radiusFilter specNeighbors
    rw [List.filter_filter]
    apply List.filter_congr
    intro j _
    by_cases hj : j = i <;> simp [hj]
  rw [herase] at htail
  exact htail

/-- Under pairwise-distinct positions the mean cosine similarity the code
computes equals the spec's mean over the radius neighbours excluding the
point itself. -/
theorem meanCos_eq_spec {ps ns : List Vec3} {i : Nat}
    (hinj : ∀ j k, j < ps.length → k < ps.length → nth ps j = nth ps k → j = k)
    (hi : i < ps.length) :
    npMean (cosSims ps ns i) = specMeanCos ps ns i := by
  unfold cosSims specMeanCos
  exact npMean_perm ((localIdx_perm_specNeighbors hinj hi).map _)

theorem maskOf_getD {n i : Nat} {d : Nat} (hi : i < n) (idxs : List Nat) :
    (maskOf n idxs).getD i d = if i ∈ idxs then 1 else 0 := by
  unfold maskOf
  rw [List.getD_eq_getElem?_getD, List.getElem?_map]
  simp [List.getElem?_range, hi]

theorem maskOf_length (n : Nat) (idxs : List Nat) : (maskOf n idxs).length = n := by
  simp [maskOf]

theorem mem_edgeIndices {ps ns : List Vec3} {t : ℚ} {i : Nat} :
    i ∈ edgeIndices ps ns t ↔
      i < ps.length ∧ meanLt (npMean (cosSims ps ns i)) t = true := by
  unfold edgeIndices
  exact mem_filterRange

theorem meanLt_mono {m : Option ℚ} {t t' : ℚ} (h : meanLt m t = true) (htt : t ≤ t') :
    meanLt m t' = true := by
  cases m with
  | none => simp [meanLt] at h
  | some x =>
    simp only [meanLt, decide_eq_true_eq] at h ⊢
    exact lt_of_lt_of_le h htt

theorem detectEdgeMasks_length (ps ns : List Vec3) : (detectEdgeMasks ps ns).length = 10 := by
  simp [detectEdgeMasks, thresholds]

theorem detectEdgeMasks_getD {ps ns : List Vec3} {k : Nat} (hk : k < 10) :
    (detectEdgeMasks ps ns).getD k [] =
      maskOf ps.length (edgeIndices ps ns ((k : ℚ) / 10)) := by
  interval_cases k <;> norm_num [detectEdgeMasks, thresholds, List.getD]

set_option maxHeartbeats 2000000 in
/-- C1: the claim that the cosine similarities of `detect_edge_points` are
computed from the supplied (loaded) normal table is false: the routine's
masks do not depend on the loaded table at all, only on the normals
re-estimated from the positions.  On the two-point cloud below, the loaded
table holds opposite normals (spec mean cosine `-1`, an edge at every
threshold) while the re-estimated normals agree (mean cosine `1`), and the
code produces the all-zero mask even at the highest threshold; feeding the
loaded table to the mask computation instead gives the all-one mask. -/
theorem detectEdgePoints_ignores_loaded_normals :
    (∀ ps ln ln' en sp pc vs sm,
        detectEdgePoints ps ln en sp pc vs sm = detectEdgePoints ps ln' en sp pc vs sm) ∧
      (detectEdgeMasks [((0:ℚ), (0:ℚ), (0:ℚ)), ((1/20 : ℚ), (0:ℚ), (0:ℚ))]
          [((0:ℚ), (0:ℚ), (1:ℚ)), ((0:ℚ), (0:ℚ), (1:ℚ))]).getD 9 [] = [0, 0] ∧
      (detectEdgeMasks [((0:ℚ), (0:ℚ), (0:ℚ)), ((1/20 : ℚ), (0:ℚ), (0:ℚ))]
          [((1:ℚ), (0:ℚ), (0:ℚ)), ((-1:ℚ), (0:ℚ), (0:ℚ))]).getD 9 [] = [1, 1] ∧
      specMeanCos [((0:ℚ), (0:ℚ), (0:ℚ)), ((1/20 : ℚ), (0:ℚ), (0:ℚ))]
          [((1:ℚ), (0:ℚ), (0:ℚ)), ((-1:ℚ), (0:ℚ), (0:ℚ))] 0 = some (-1) := by
  refine ⟨fun ps ln ln' en sp pc vs sm => rfl, ?_, ?_, ?_⟩
  · norm_num [detectEdgeMasks, thresholds, maskOf, edgeIndices, meanLt, npMean, cosSims, dot,
      localIdx, sortedNeighbors, nth, d2, edgeRadius2, List.range_succ, List.insertionSort,
      List.orderedInsert, nnLE, List.getD]
  · norm_num [detectEdgeMasks, thresholds, maskOf, edgeIndices, meanLt, npMean, cosSims, dot,
      localIdx, sortedNeighbors, nth, d2, edgeRadius2, List.range_succ, List.insertionSort,
      List.orderedInsert, nnLE, List.getD]
  · norm_num [specMeanCos, specNeighbors, npMean, dot, nth, d2, edgeRadius2, List.range_succ]

/-- C2: every call to `detect_edge_points` reaches the final
`return binary_mask` statement and fails there with an undefined-name error
(`NameError` for `binary_mask`), for every input and both values of
`save_mask`; when `save_mask` is true the ten per-threshold mask files have
already been written before that failure (the save effects are part of the
result and are not rolled back), and when it is false nothing is written. -/
theorem detectEdgePoints_nameError_after_saves
    (ps ln en : List Vec3) (sp pc vs : String) (sm : Bool) :
    (detectEdgePoints ps ln en sp pc vs sm).2 =
        Except.error (PyError.nameError "binary_mask") ∧
      (detectEdgePoints ps ln en sp pc vs true).1 =
        (maskFilePaths sp pc vs).zip (detectEdgeMasks ps en) ∧
      (detectEdgePoints ps ln en sp pc vs true).1.length = 10 ∧
      (detectEdgePoints ps ln en sp pc vs false).1 = [] := by
  refine ⟨rfl, rfl, ?_, rfl⟩
  simp [detectEdgePoints, List.length_zip, maskFilePaths, detectEdgeMasks_length]

/-- C3: under pairwise-distinct positions, `detect_edge_points` computes
exactly ten masks, each a dense 0/1 array indexed in point order with one
entry per point, and entry `i` of mask `k` is `1` precisely when the mean
cosine similarity between normal `i` and the normals of the radius
neighbours of point `i` (the point itself excluded) is strictly below the
threshold `k/10`, the thresholds being `{0.0, 0.1, ..., 0.9}`. -/
theorem detectEdgeMasks_threshold_spec
    (ps ns : List Vec3)
    (hinj : ∀ j k, j < ps.length → k < ps.length → nth ps j = nth ps k → j = k) :
    (detectEdgeMasks ps ns).length = 10 ∧
      ∀ k, k < 10 →
        ((detectEdgeMasks ps ns).getD k []).length = ps.length ∧
        ∀ i, i < ps.length →
          (((detectEdgeMasks ps ns).getD k []).getD i 0 = 1 ↔
              meanLt (specMeanCos ps ns i) ((k : ℚ) / 10) = true) ∧
          (((detectEdgeMasks ps ns).getD k []).getD i 0 = 0 ∨
            ((detectEdgeMasks ps ns).getD k []).getD i 0 = 1) := by
  refine ⟨detectEdgeMasks_length ps ns, ?_⟩
  intro k hk
  rw [detectEdgeMasks_getD hk]
  refine ⟨maskOf_length _ _, ?_⟩
  intro i hi
  rw [maskOf_getD hi]
  constructor
  · constructor
    · intro h1
      by_cases hmem : i ∈ edgeIndices ps ns ((k : ℚ) / 10)
      · have := (mem_edgeIndices.mp hmem).2
        rwa [meanCos_eq_spec hinj hi] at this
      · simp [hmem] at h1
    · intro h2
      have hmem : i ∈ edgeIndices ps ns ((k : ℚ) / 10) :=
        mem_edgeIndices.mpr ⟨hi, by rwa [meanCos_eq_spec hinj hi]⟩
      simp [hmem]
  · by_cases hmem : i ∈ edgeIndices ps ns ((k : ℚ) / 10) <;> simp [hmem]

set_option maxHeartbeats 2000000 in
theorem detectEdgeMasks_threshold_spec_witness :
    (detectEdgeMasks [((0:ℚ), (0:ℚ), (0:ℚ)), ((1/20 : ℚ), (0:ℚ), (0:ℚ))]
        [((1:ℚ), (0:ℚ), (0:ℚ)), ((-1:ℚ), (0:ℚ), (0:ℚ))]).length = 10 ∧
      (((detectEdgeMasks [((0:ℚ), (0:ℚ), (0:ℚ)), ((1/20 : ℚ), (0:ℚ), (0:ℚ))]
            [((1:ℚ), (0:ℚ), (0:ℚ)), ((-1:ℚ), (0:ℚ), (0:ℚ))]).getD 9 []).getD 0 0 = 1 ↔
        meanLt (specMeanCos [((0:ℚ), (0:ℚ), (0:ℚ)), ((1/20 : ℚ), (0:ℚ), (0:ℚ))]
            [((1:ℚ), (0:ℚ), (0:ℚ)), ((-1:ℚ), (0:ℚ), (0:ℚ))] 0) (((9 : ℕ) : ℚ) / 10) = true) := by
  have h := detectEdgeMasks_threshold_spec
    [((0:ℚ), (0:ℚ), (0:ℚ)), ((1/20 : ℚ), (0:ℚ), (0:ℚ))]
    [((1:ℚ), (0:ℚ), (0:ℚ)), ((-1:ℚ), (0:ℚ), (0:ℚ))]
    (by
      intro j k hj hk
      simp only [List.length_cons, List.length_nil] at hj hk
      interval_cases j <;> interval_cases k <;> norm_num [nth, List.getD, Prod.ext_iff])
  exact ⟨h.1, ((h.2 9 (by norm_num)).2 0 (by norm_num)).1⟩

/-- C4: edge-mask monotonicity: for thresholds `k/10 < k'/10` in the fixed
set, any point marked in mask `k` is also marked in mask `k'`. -/
theorem detectEdgeMasks_monotone
    (ps ns : List Vec3) (k k' i : Nat) (hkk : k < k') (hk' : k' < 10)
    (h1 : ((detectEdgeMasks ps ns).getD k []).getD i 0 = 1) :
    ((detectEdgeMasks ps ns).getD k' []).getD i 0 = 1 := by
  have hk : k < 10 := hkk.trans hk'
  rw [detectEdgeMasks_getD hk] at h1
  rw [detectEdgeMasks_getD hk']
  have hi : i < ps.length := by
    by_contra hge
    push_neg at hge
    rw [List.getD_eq_default _ _ (by rw [maskOf_length]; exact hge)] at h1
    exact absurd h1 (by norm_num)
  rw [maskOf_getD hi] at h1 ⊢
  by_cases hm : i ∈ edgeIndices ps ns ((k : ℚ) / 10)
  · have hlt := (mem_edgeIndices.mp hm).2
    have hle : ((k : ℚ)) / 10 ≤ ((k' : ℚ)) / 10 := by
      have : (k : ℚ) ≤ (k' : ℚ) := by exact_mod_cast hkk.le
      linarith
    have hm' : i ∈ edgeIndices ps ns ((k' : ℚ) / 10) :=
      mem_edgeIndices.mpr ⟨hi, meanLt_mono hlt hle⟩
    simp [hm']
  · simp [hm] at h1

set_option maxHeartbeats 2000000 in
theorem detectEdgeMasks_monotone_witness :
    (0 : ℕ) < 5 ∧ (5 : ℕ) < 10 ∧
      ((detectEdgeMasks [((0:ℚ), (0:ℚ), (0:ℚ)), ((1/20 : ℚ), (0:ℚ), (0:ℚ))]
          [((1:ℚ), (0:ℚ), (0:ℚ)), ((-1:ℚ), (0:ℚ), (0:ℚ))]).getD 0 []).getD 0 0 = 1 ∧
      ((detectEdgeMasks [((0:ℚ), (0:ℚ), (0:ℚ)), ((1/20 : ℚ), (0:ℚ), (0:ℚ))]
          [((1:ℚ), (0:ℚ), (0:ℚ)), ((-1:ℚ), (0:ℚ), (0:ℚ))]).getD 5 []).getD 0 0 = 1 := by
  have h1 : ((detectEdgeMasks [((0:ℚ), (0:ℚ), (0:ℚ)), ((1/20 : ℚ), (0:ℚ), (0:ℚ))]
      [((1:ℚ), (0:ℚ), (0:ℚ)), ((-1:ℚ), (0:ℚ), (0:ℚ))]).getD 0 []).getD 0 0 = 1 := by
    norm_num [detectEdgeMasks, thresholds, maskOf, edgeIndices, meanLt, npMean, cosSims, dot,
      localIdx, sortedNeighbors, nth, d2, edgeRadius2, List.range_succ, List.insertionSort,
      List.orderedInsert, nnLE, List.getD]
  exact ⟨by norm_num, by norm_num, h1,
    detectEdgeMasks_monotone _ _ 0 5 0 (by norm_num) (by norm_num) h1⟩

/-- C5: a point whose radius neighbourhood contains no other point (every
other point lies strictly beyond the search radius) is treated as a
non-edge: the undefined (NaN) mean cosine similarity compares false against
every threshold, so the point receives mask value 0 in all ten masks. -/
theorem detectEdgeMasks_isolated_point_zero
    (ps ns : List Vec3) (i : Nat) (hi : i < ps.length)
    (hfar : ∀ j, j < ps.length → j ≠ i → edgeRadius2 < d2 (nth ps i) (nth ps j)) :
    ∀ k, k < 10 → ((detectEdgeMasks ps ns).getD k []).getD i 0 = 0 := by
  have hsub : ∀ j ∈ radiusFilter ps i, j = i := by
    intro j hj
    have hj' := mem_filterRange.mp hj
    by_contra hne
    have hgt := hfar j hj'.1 hne
    have hle : d2 (nth ps i) (nth ps j) ≤ edgeRadius2 := by
      simpa using hj'.2
    linarith
  have hmem := self_mem_radiusFilter hi
  have hnd := radiusFilter_nodup ps i
  have hF : radiusFilter ps i = [i] := by
    cases hFc : radiusFilter ps i with
    | nil => rw [hFc] at hmem; cases hmem
    | cons a l =>
      rw [hFc] at hsub hnd
      have ha : a = i := hsub a (List.mem_cons_self a l)
      have hl : l = [] := by
        cases l with
        | nil => rfl
        | cons b m =>
          exfalso
          have hb : b = i := hsub b (List.mem_cons_of_mem a (List.mem_cons_self b m))
          rw [ha, hb] at hnd
          simp [List.nodup_cons] at hnd
      rw [ha, hl]
  have hempty : localIdx ps i = [] := by
    unfold localIdx
    rw [sortedNeighbors_eq_sort, hF]
    rfl
  intro k hk
  rw [detectEdgeMasks_getD hk, maskOf_getD hi]
  have hnotmem : i ∉ edgeIndices ps ns ((k : ℚ) / 10) := by
    intro hm
    have := (mem_edgeIndices.mp hm).2
    simp [cosSims, hempty, npMean, meanLt] at this
  simp [hnotmem]

theorem detectEdgeMasks_isolated_point_zero_witness :
    (0 : ℕ) < ([((0:ℚ), (0:ℚ), (0:ℚ)), ((1:ℚ), (0:ℚ), (0:ℚ))] : List Vec3).length ∧
      ((detectEdgeMasks [((0:ℚ), (0:ℚ), (0:ℚ)), ((1:ℚ), (0:ℚ), (0:ℚ))]
          [((0:ℚ), (0:ℚ), (1:ℚ)), ((0:ℚ), (0:ℚ), (1:ℚ))]).getD 9 []).getD 0 0 = 0 := by
  refine ⟨by norm_num, ?_⟩
  refine detectEdgeMasks_isolated_point_zero _ _ 0 (by norm_num) ?_ 9 (by norm_num)
  intro j hj hne
  simp only [List.length_cons, List.length_nil] at hj
  interval_cases j
  · exact absurd rfl hne
  · norm_num [d2, nth, edgeRadius2, List.getD]

/-- The index returned by the modelled `kNearest(q, 1)` query satisfies the
spec's argmin property: it is a valid index at minimal distance, with ties
broken toward the smaller original index. -/
theorem nearestIdx_isNearest (ps : List Vec3) (q : Vec3) (hps : ps ≠ []) :
    IsNearest1 ps q (nearestIdx ps q) := by
  have hlen : 0 < ps.length := List.length_pos.mpr hps
  have hperm : (List.insertionSort (nnLE ps q) (List.range ps.length)).Perm
      (List.range ps.length) := List.perm_insertionSort _ _
  have hsorted := List.sorted_insertionSort (nnLE ps q) (List.range ps.length)
  cases hL : List.insertionSort (nnLE ps q) (List.range ps.length) with
  | nil =>
    exfalso
    rw [hL] at hperm
    have := hperm.length_eq
    simp at this
    omega
  | cons h t =>
    rw [hL] at hperm hsorted
    have hrel : ∀ b ∈ t, nnLE ps q h b := (List.sorted_cons.mp hsorted).1
    have hh : h < ps.length :=
      List.mem_range.mp (hperm.mem_iff.mp (List.mem_cons_self h t))
    have hnv : nearestIdx ps q = h := by
      unfold nearestIdx
      rw [hL]
      rfl
    rw [hnv]
    refine ⟨hh, ?_⟩
    intro j hj
    have hjmem : j ∈ h :: t := hperm.mem_iff.mpr (List.mem_range.mpr hj)
    rcases List.mem_cons.mp hjmem with e | ht
    · subst e
      exact Or.inr ⟨rfl, le_rfl⟩
    · exact hrel j ht

theorem zipWith3_eq_nil_iff {α β γ δ : Type} {f : α → β → γ → δ}
    {as : List α} {bs : List β} {cs : List γ} :
    List.zipWith3 f as bs cs = [] ↔ as = [] ∨ bs = [] ∨ cs = [] := by
  cases as <;> cases bs <;> cases cs <;> simp [List.zipWith3]

/-- Structure of a successful voxel downsample: positions and colors have
equal length (one representative per occupied voxel), and a nonempty input
yields a nonempty output. -/
theorem voxelDownSample_ok_struct {ps cs : List Vec3} {v : ℚ} {dpos dcol : List Vec3}
    (h : voxelDownSample ps cs v = Except.ok (dpos, dcol)) :
    dcol.length = dpos.length ∧ (ps ≠ [] → dpos ≠ []) := by
  unfold voxelDownSample at h
  by_cases hv : v ≤ 0
  · rw [if_pos hv] at h
    exact absurd h (by simp)
  · rw [if_neg hv] at h
    simp only [Except.ok.injEq, Prod.mk.injEq] at h
    obtain ⟨h1, h2⟩ := h
    constructor
    · rw [← h1, ← h2]
      simp
    · intro hne hd
      rw [← h1, List.map_eq_nil_iff, List.dedup_eq_nil, List.map_eq_nil_iff] at hd
      exact hne hd

/-- C6 counterexample: a downsample request on a zero-row (7-column) table
with a valid voxel size does not fail with `EmptyCloudError`: the run
reaches the `np.max` reduction over the empty combined table and fails
there with numpy's generic `ValueError`, before the save, so nothing is
persisted. -/
theorem processPointCloudsFile_empty_no_emptyCloudError :
    processPointCloudsFile ⟨7, []⟩ (3/10) "cloud.npy" ≠
        Except.error PyError.emptyCloudError ∧
      processPointCloudsFile ⟨7, []⟩ (3/10) "cloud.npy" =
        Except.error (PyError.valueError
          "zero-size array to reduction operation maximum which has no identity") := by
  have h : processPointCloudsFile ⟨7, []⟩ (3/10) "cloud.npy" =
      Except.error (PyError.valueError
        "zero-size array to reduction operation maximum which has no identity") := by
    norm_num [processPointCloudsFile, voxelDownSample, List.zipWith3]
  refine ⟨?_, h⟩
  rw [h]
  simp

/-- C6 amended: the downsampler performs no validation of its own and the
spec's `EmptyCloudError` / `InvalidVoxelSizeError` are never raised by any
input: a zero-row 7-column table with positive voxel size fails only with
numpy's generic `ValueError` from the `np.max` reduction over the empty
combined table (raised before the save, so nothing is persisted), and a
non-positive voxel size (with at least 7 columns present) surfaces only as
the underlying library's generic runtime error. -/
theorem processPointCloudsFile_error_behavior (a : NpArray) (v : ℚ) (path : String) :
    (processPointCloudsFile a v path ≠ Except.error PyError.emptyCloudError ∧
        processPointCloudsFile a v path ≠ Except.error PyError.invalidVoxelSizeError) ∧
      (7 ≤ a.ncols → v ≤ 0 →
        processPointCloudsFile a v path =
          Except.error (PyError.runtimeError "voxel_size <= 0")) ∧
      (a.rows = [] → a.ncols = 7 → 0 < v →
        processPointCloudsFile a v path =
          Except.error (PyError.valueError
            "zero-size array to reduction operation maximum which has no identity")) := by
  refine ⟨?_, ?_, ?_⟩
  · by_cases hc : a.ncols < 7
    · simp [processPointCloudsFile, hc]
    · rcases hvc : voxelDownSample (a.rows.map rowPos) (a.rows.map rowColor) v with e | dc
      · have he : e = PyError.runtimeError "voxel_size <= 0" := by
          unfold voxelDownSample at hvc
          by_cases hv : v ≤ 0
          · rw [if_pos hv] at hvc
            injection hvc with h
            exact h.symm
          · rw [if_neg hv] at hvc
            exact absurd hvc (by simp)
        subst he
        simp [processPointCloudsFile, hc, hvc]
      · obtain ⟨dpos, dcol⟩ := dc
        by_cases hcomb : List.zipWith3 outRow dpos dcol
            (dpos.map (fun p => (a.rows.map (fun r => r.getD 6 0)).getD
              (nearestIdx (a.rows.map rowPos) p) 0)) = []
        · simp only [processPointCloudsFile, hvc, if_neg hc, if_pos hcomb]
          exact ⟨by simp, by simp⟩
        · simp only [processPointCloudsFile, hvc, if_neg hc, if_neg hcomb]
          exact ⟨by simp, by simp⟩
  · intro h7 hv
    have hn : ¬ a.ncols < 7 := not_lt.mpr h7
    simp [processPointCloudsFile, voxelDownSample, hn, hv]
  · intro hrows h7 hv
    have hn : ¬ v ≤ 0 := not_le.mpr hv
    simp [processPointCloudsFile, voxelDownSample, hrows, h7, hn, List.zipWith3]

theorem processPointCloudsFile_error_behavior_witness :
    processPointCloudsFile ⟨7, [[(1:ℚ), 2, 3, 4, 5, 6, 7]]⟩ (-1) "f.npy" =
        Except.error (PyError.runtimeError "voxel_size <= 0") ∧
      processPointCloudsFile ⟨7, []⟩ (3/10) "g.npy" =
        Except.error (PyError.valueError
          "zero-size array to reduction operation maximum which has no identity") :=
  ⟨(processPointCloudsFile_error_behavior ⟨7, [[(1:ℚ), 2, 3, 4, 5, 6, 7]]⟩ (-1) "f.npy").2.1
      (by norm_num) (by norm_num),
   (processPointCloudsFile_error_behavior ⟨7, []⟩ (3/10) "g.npy").2.2 rfl rfl (by norm_num)⟩

/-- C7: on a nonempty 7-column table, whatever representative points and
colors the library's voxel downsample returns, the stage succeeds: each
representative inherits the intensity (column 6) of the nearest original
point — the index answering `kNearest(point, 1)` against the original
positions, a true argmin with smallest-index tie-breaking — and the table
written back to the input path is exactly
`[position / 1_000_000, color, inherited intensity]` column-concatenated in
that order.  Nonemptiness is the spec's PointCloud invariant (section 3); a
zero-row table instead fails at the `np.max` reduction and persists
nothing (see the C6 theorems). -/
theorem processPointCloudsFile_output_spec (a : NpArray) (v : ℚ) (path : String)
    (h7 : a.ncols = 7) (hrows : a.rows ≠ []) (dpos dcol : List Vec3)
    (hvd : voxelDownSample (a.rows.map rowPos) (a.rows.map rowColor) v =
      Except.ok (dpos, dcol)) :
    processPointCloudsFile a v path =
        Except.ok (path, ⟨7, List.zipWith3 outRow dpos dcol
          (dpos.map (fun p => (a.rows.map (fun r => r.getD 6 0)).getD
            (nearestIdx (a.rows.map rowPos) p) 0))⟩) ∧
      ∀ q, IsNearest1 (a.rows.map rowPos) q (nearestIdx (a.rows.map rowPos) q) := by
  have hstruct := voxelDownSample_ok_struct hvd
  have hpne : a.rows.map rowPos ≠ [] := by simpa using hrows
  have hdne : dpos ≠ [] := hstruct.2 hpne
  have hcne : dcol ≠ [] := by
    intro hc
    rw [hc] at hstruct
    exact hdne (List.length_eq_zero.mp hstruct.1.symm)
  constructor
  · have hn : ¬ a.ncols < 7 := by omega
    have hcomb : List.zipWith3 outRow dpos dcol
        (dpos.map (fun p => (a.rows.map (fun r => r.getD 6 0)).getD
          (nearestIdx (a.rows.map rowPos) p) 0)) ≠ [] := by
      intro hEq
      rcases zipWith3_eq_nil_iff.mp hEq with h | h | h
      · exact hdne h
      · exact hcne h
      · exact hdne (List.map_eq_nil_iff.mp h)
    simp only [processPointCloudsFile, hvd, if_neg hn, if_neg hcomb]
  · intro q
    exact nearestIdx_isNearest _ q hpne

set_option maxHeartbeats 1000000 in
theorem processPointCloudsFile_output_spec_witness :
    voxelDownSample ((⟨7, [[(1:ℚ), 2, 3, 4, 5, 6, 7]]⟩ : NpArray).rows.map rowPos)
        ((⟨7, [[(1:ℚ), 2, 3, 4, 5, 6, 7]]⟩ : NpArray).rows.map rowColor) (3/10) =
      Except.ok ([((1:ℚ), (2:ℚ), (3:ℚ))], [((4/65536 : ℚ), (5/65536 : ℚ), (6/65536 : ℚ))]) ∧
    processPointCloudsFile ⟨7, [[(1:ℚ), 2, 3, 4, 5, 6, 7]]⟩ (3/10) "p.npy" =
      Except.ok ("p.npy", ⟨7, List.zipWith3 outRow
        [((1:ℚ), (2:ℚ), (3:ℚ))] [((4/65536 : ℚ), (5/65536 : ℚ), (6/65536 : ℚ))]
        ([((1:ℚ), (2:ℚ), (3:ℚ))].map
          (fun p => ((⟨7, [[(1:ℚ), 2, 3, 4, 5, 6, 7]]⟩ : NpArray).rows.map
            (fun r => r.getD 6 0)).getD
              (nearestIdx ((⟨7, [[(1:ℚ), 2, 3, 4, 5, 6, 7]]⟩ : NpArray).rows.map rowPos) p) 0))⟩) ∧
    IsNearest1 ((⟨7, [[(1:ℚ), 2, 3, 4, 5, 6, 7]]⟩ : NpArray).rows.map rowPos)
      ((1:ℚ), (2:ℚ), (3:ℚ))
      (nearestIdx ((⟨7, [[(1:ℚ), 2, 3, 4, 5, 6, 7]]⟩ : NpArray).rows.map rowPos)
        ((1:ℚ), (2:ℚ), (3:ℚ))) := by
  have hvd : voxelDownSample ((⟨7, [[(1:ℚ), 2, 3, 4, 5, 6, 7]]⟩ : NpArray).rows.map rowPos)
      ((⟨7, [[(1:ℚ), 2, 3, 4, 5, 6, 7]]⟩ : NpArray).rows.map rowColor) (3/10) =
      Except.ok ([((1:ℚ), (2:ℚ), (3:ℚ))], [((4/65536 : ℚ), (5/65536 : ℚ), (6/65536 : ℚ))]) := by
    norm_num [voxelDownSample, rowPos, rowColor, voxelKey, centroid, List.getD,
      List.dedup_cons_of_not_mem]
  have h := processPointCloudsFile_output_spec ⟨7, [[(1:ℚ), 2, 3, 4, 5, 6, 7]]⟩ (3/10) "p.npy"
    rfl (by simp) _ _ hvd
  exact ⟨hvd, h.1, h.2 ((1:ℚ), (2:ℚ), (3:ℚ))⟩

/-- C8: `process_and_normalize_normals` stores, for every estimated normal,
each component remapped by exactly `(x + 1) / 2 * 255`, and this map sends
`-1` to `0`, `0` to `127.5` (that is, `255/2`) and `1` to `255`. -/
theorem processAndNormalizeNormals_remap (estN : List Vec3) (outF file : String) :
    (processAndNormalizeNormals estN outF file).2 =
        estN.map (fun n =>
          ((n.1 + 1) / 2 * 255, (n.2.1 + 1) / 2 * 255, (n.2.2 + 1) / 2 * 255)) ∧
      (processAndNormalizeNormals estN outF file).1 = outF ++ "/" ++ file ∧
      normalizeComponent (-1) = 0 ∧
      normalizeComponent 0 = 255 / 2 ∧
      normalizeComponent 1 = 255 := by
  refine ⟨rfl, rfl, ?_, ?_, ?_⟩ <;> norm_num [normalizeComponent]

/-- C9: the downsampler stage is deterministic — two runs on equal input
tables with equal voxel sizes and paths return equal results (the embedding
is a pure function of its inputs; no other state enters) — and the
nearest-neighbour index of the intensity-inheritance step is uniquely
determined: any two indices satisfying the argmin characterisation of
`kNearest(q, 1)` coincide, so the inherited intensities admit no
tie-ambiguity. -/
theorem processPointClouds_deterministic :
    (∀ a a' : NpArray, ∀ v v' : ℚ, ∀ p p' : String, a = a' → v = v' → p = p' →
        processPointCloudsFile a v p = processPointCloudsFile a' v' p') ∧
      ∀ ps q i j, IsNearest1 ps q i → IsNearest1 ps q j → i = j := by
  constructor
  · intro a a' v v' p p' ha hv hp
    subst ha; subst hv; subst hp
    rfl
  · intro ps q i j hi hj
    rcases hi with ⟨hil, hmin⟩
    rcases hj with ⟨hjl, hmin'⟩
    rcases hmin j hjl with h1 | ⟨e1, le1⟩
    · rcases hmin' i hil with h2 | ⟨e2, le2⟩
      · exact absurd (h1.trans h2) (lt_irrefl _)
      · linarith
    · rcases hmin' i hil with h2 | ⟨e2, le2⟩
      · linarith
      · omega

theorem processPointClouds_deterministic_witness :
    processPointCloudsFile ⟨7, []⟩ (3/10) "h.npy" =
        processPointCloudsFile ⟨7, []⟩ (3/10) "h.npy" ∧
      (0 : ℕ) = 0 := by
  have hnear : IsNearest1 [((0:ℚ), (0:ℚ), (0:ℚ))] ((0:ℚ), (0:ℚ), (0:ℚ)) 0 := by
    constructor
    · norm_num
    · intro j hj
      simp only [List.length_cons, List.length_nil] at hj
      interval_cases j
      exact Or.inr ⟨rfl, le_rfl⟩
  exact ⟨processPointClouds_deterministic.1 _ _ _ _ _ _ rfl rfl rfl,
    processPointClouds_deterministic.2 [((0:ℚ), (0:ℚ), (0:ℚ))] ((0:ℚ), (0:ℚ), (0:ℚ)) 0 0
      hnear hnear⟩

/-- C10: the downsampler stage unconditionally reads column 6 after slicing
columns 3:6 (numpy slices clamp, the scalar column read does not), so every
loaded array with fewer than 7 columns makes the stage fail with an
`IndexError` before any downsampling; consequently a run can succeed only
on an array with at least 7 columns — among the loader-producible schemas
(at most 7 columns), exactly the 7-column ones.  A zero-row 7-column input
still fails, with the `ValueError` of the `np.max` reduction (see the C6
theorems), so success additionally requires a nonempty table. -/
theorem processPointCloudsFile_column_arity (a : NpArray) (v : ℚ) (path : String) :
    (a.ncols < 7 → processPointCloudsFile a v path = Except.error PyError.indexError) ∧
      ∀ out, processPointCloudsFile a v path = Except.ok out → 7 ≤ a.ncols := by
  have h1 : a.ncols < 7 →
      processPointCloudsFile a v path = Except.error PyError.indexError := by
    intro hc
    simp [processPointCloudsFile, hc]
  refine ⟨h1, ?_⟩
  intro out hok
  by_contra hlt
  push_neg at hlt
  rw [h1 hlt] at hok
  exact Except.noConfusion hok

set_option maxHeartbeats 2000000 in
theorem processPointCloudsFile_column_arity_witness :
    processPointCloudsFile ⟨3, [[(0:ℚ), 0, 0]]⟩ (3/10) "x.npy" =
        Except.error PyError.indexError ∧
      7 ≤ (⟨7, [[(1:ℚ), 2, 3, 4, 5, 6, 7]]⟩ : NpArray).ncols := by
  constructor
  · exact (processPointCloudsFile_column_arity ⟨3, [[(0:ℚ), 0, 0]]⟩ (3/10) "x.npy").1
      (by norm_num)
  · have hok : processPointCloudsFile ⟨7, [[(1:ℚ), 2, 3, 4, 5, 6, 7]]⟩ (3/10) "y.npy" =
        Except.ok ("y.npy",
          ⟨7, [[1/1000000, 2/1000000, 3/1000000, 4/65536, 5/65536, 6/65536, 7]]⟩) := by
      norm_num [processPointCloudsFile, voxelDownSample, rowPos, rowColor, voxelKey, centroid,
        nearestIdx, outRow, List.zipWith3, List.getD, List.range_succ, List.insertionSort,
        List.orderedInsert, List.dedup_cons_of_not_mem]
    exact (processPointCloudsFile_column_arity ⟨7, [[(1:ℚ), 2, 3, 4, 5, 6, 7]]⟩ (3/10)
      "y.npy").2 _ hok
